import Mathlib

/-!
Shallow embedding of src/src/teleop_twist_joy.cpp (package joy_base_control).

Modelling conventions:
- C++ float/double values are modelled as exact rationals (ℚ); the literal
  1.2 becomes 6/5 and the field initializer 0.1 becomes 1/10.
- sensor_msgs/Joy carries float32 axes and int32 buttons; we model the axes
  as List ℚ and the buttons as List Int, with C truthiness (nonzero = pressed).
- std::vector operator[] performs no bounds check: an index outside the
  vector is undefined behaviour.  We model every such access as an Option
  read that yields none when the (size_t-converted) index is out of range,
  so a none result marks an out-of-bounds access in the source.
- std::map of string to int is modelled as an association list with lookup.
- size_t conversion of a C++ int (signed-to-unsigned, 64-bit) is modelled
  explicitly, because getVal compares a signed map value against the
  unsigned vector size.
- ROS publishing and logging are side effects outside the core logic; the
  embedded joyCallback returns the updated Impl state together with the
  Twist message it publishes.  ros. Duration(reaction_t).sleep() in
  ModifyVelocity blocks the thread and touches no state, so the embedded
  function carries no trace of it beyond this note.
-/

/-- The velocity command message geometry_msgs/Twist: linear x, y, z and
angular x, y, z components.  ROS messages are zero-initialized. -/
structure Twist where
  linX : ℚ
  linY : ℚ
  linZ : ℚ
  angX : ℚ
  angY : ℚ
  angZ : ℚ
  deriving DecidableEq

/-- The zero-initialized Twist, the state of cmd_vel_msg at construction. -/
def zeroTwist : Twist := ⟨0, 0, 0, 0, 0, 0⟩

/-- The input frame sensor_msgs/Joy: float axes and int32 buttons. -/
structure JoyMsg where
  axes : List ℚ
  buttons : List Int
  deriving DecidableEq

/-- Conversion of a C++ signed int to size_t (unsigned 64-bit), as happens
in the comparison axes.size() <= axis_map.at(fieldname) and inside
vector operator[]. -/
def size_t_conv (i : Int) : Nat := (i % (2 ^ 64 : Int)).toNat

/-- Unchecked std::vector operator[] access at a C++ int index: the index is
converted to size_t; an out-of-range access is undefined behaviour,
modelled as none. -/
def vecRead (l : List Int) (i : Int) : Option Int :=
  if h : size_t_conv i < l.length then some (l.get ⟨size_t_conv i, h⟩) else none

/-- The pimpl state struct TeleopTwistJoy.Impl: button indices, current
scale (mov_vel), fixed lower bound (min_vel = 0.1), configured upper bound
(max_vel), the axis maps, and the retained cmd_vel_msg. -/
structure Impl where
  cmd_vel_msg : Twist
  enable_mov : Int
  increment_vel : Int
  decrement_vel : Int
  mov_vel : ℚ
  min_vel : ℚ
  max_vel : ℚ
  axis_position_map : List (String × Int)
  axis_orientation_map : List (String × Int)
  deriving DecidableEq

/-- The field initializer of Impl.min_vel in the source: float min_vel = 0.1. -/
def min_vel_init : ℚ := 1 / 10

/-- The field initializer of Impl.reaction_t: float reaction_t = 0.5, the
operator reaction time slept in ModifyVelocity. -/
def reaction_t_init : ℚ := 1 / 2

/-- The TeleopTwistJoy constructor: stores the configured button indices and
axis maps, max_vel from configuration, and sets mov_vel = 0.5; min_vel and
reaction_t keep their field initializers; cmd_vel_msg starts zeroed. -/
def mkImpl (enable inc dec : Int) (posMap orientMap : List (String × Int))
    (maxv : ℚ) : Impl :=
  { cmd_vel_msg := zeroTwist
    enable_mov := enable
    increment_vel := inc
    decrement_vel := dec
    mov_vel := 1 / 2
    min_vel := min_vel_init
    max_vel := maxv
    axis_position_map := posMap
    axis_orientation_map := orientMap }

/-- getVal: looks fieldname up in axis_map; if absent, or if
axes.size() <= axis_map.at(fieldname) under the signed-to-unsigned
comparison, returns 0.0; otherwise returns axes[axis_map.at(fieldname)]. -/
def getVal (axes : List ℚ) (axis_map : List (String × Int))
    (fieldname : String) : ℚ :=
  match axis_map.lookup fieldname with
  | none => 0
  | some idx =>
      if axes.length ≤ size_t_conv idx then 0
      else axes.getD (size_t_conv idx) 0

/-- ModifyVelocity: if buttons[increment_vel] is truthy the scale becomes
min(scale * 1.2, max_vel); else if buttons[decrement_vel] is truthy it
becomes max(scale / 1.2, min_vel); else it is unchanged.  Both button reads
are unchecked vector accesses (none on out-of-range).  The trailing
ros. Duration(reaction_t).sleep() blocks the thread and is stateless. -/
def ModifyVelocity (buttons : List Int) (inc dec : Int)
    (minv maxv scale : ℚ) : Option ℚ :=
  match vecRead buttons inc with
  | none => none
  | some bi =>
      if bi ≠ 0 then some (min (scale * (6 / 5)) maxv)
      else
        match vecRead buttons dec with
        | none => none
        | some bd =>
            if bd ≠ 0 then some (max (scale / (6 / 5)) minv)
            else some scale

/-- joyCallback: reads buttons[enable_mov] (unchecked).  If truthy, reads
buttons[increment_vel] and, when that is falsy, buttons[decrement_vel]
(both unchecked, mirroring the short-circuit of the C++ condition); if
either is truthy it calls ModifyVelocity on mov_vel, leaving cmd_vel_msg
untouched; otherwise it recomputes cmd_vel_msg's linear.x, linear.y and
angular.z from the axes scaled by mov_vel.  If enable is falsy it zeroes
those three components.  It then publishes cmd_vel_msg.  The result pairs
the updated Impl with the published Twist; none marks an out-of-bounds
button access. -/
def joyCallback (impl : Impl) (joy : JoyMsg) : Option (Impl × Twist) :=
  match vecRead joy.buttons impl.enable_mov with
  | none => none
  | some be =>
      if be ≠ 0 then
        match vecRead joy.buttons impl.increment_vel with
        | none => none
        | some bi =>
            if bi ≠ 0 then
              (ModifyVelocity joy.buttons impl.increment_vel impl.decrement_vel
                  impl.min_vel impl.max_vel impl.mov_vel).map
                (fun s => ({ impl with mov_vel := s }, impl.cmd_vel_msg))
            else
              match vecRead joy.buttons impl.decrement_vel with
              | none => none
              | some bd =>
                  if bd ≠ 0 then
                    (ModifyVelocity joy.buttons impl.increment_vel
                        impl.decrement_vel impl.min_vel impl.max_vel
                        impl.mov_vel).map
                      (fun s => ({ impl with mov_vel := s }, impl.cmd_vel_msg))
                  else
                    let cmd : Twist :=
                      { impl.cmd_vel_msg with
                        linX := impl.mov_vel *
                          getVal joy.axes impl.axis_position_map "x"
                        linY := impl.mov_vel *
                          getVal joy.axes impl.axis_position_map "y"
                        angZ := impl.mov_vel *
                          getVal joy.axes impl.axis_orientation_map "z" }
                    some ({ impl with cmd_vel_msg := cmd }, cmd)
      else
        let cmd : Twist :=
          { impl.cmd_vel_msg with linX := 0, linY := 0, angZ := 0 }
        some ({ impl with cmd_vel_msg := cmd }, cmd)

/-- Iterated ModifyVelocity over a sequence of button frames, threading the
scale; none as soon as one call performs an out-of-bounds access. -/
def runAdjust (inc dec : Int) (minv maxv : ℚ) :
    List (List Int) → ℚ → Option ℚ
  | [], s => some s
  | f :: fs, s =>
      match ModifyVelocity f inc dec minv maxv s with
      | none => none
      | some s' => runAdjust inc dec minv maxv fs s'

/-- One decrement step of the scale as performed by ModifyVelocity's
decrement branch with the source's fixed min_vel: max(scale / 1.2, 0.1). -/
def decStep (s : ℚ) : ℚ := max (s / (6 / 5)) min_vel_init

/-- The scale sequence produced by repeatedly applied decrement
adjustments. -/
def decSeq (s : ℚ) : Nat → ℚ
  | 0 => s
  | n + 1 => decStep (decSeq s n)

/-- States of the pimpl object reachable in a run: the constructed state,
and any state produced from a reachable one by a completed joyCallback. -/
inductive Reachable : Impl → Prop
  | init (enable inc dec : Int) (posMap orientMap : List (String × Int))
      (maxv : ℚ) : Reachable (mkImpl enable inc dec posMap orientMap maxv)
  | step (impl impl' : Impl) (joy : JoyMsg) (cmd : Twist) :
      Reachable impl → joyCallback impl joy = some (impl', cmd) →
      Reachable impl'

/-! Helper lemmas about the size_t conversion and single adjustment steps. -/

/-- For a non-negative C++ int, conversion to size_t is the identity. -/
lemma size_t_conv_eq_toNat {i : Int} (h0 : 0 ≤ i) (h1 : i < 2 ^ 31) :
    size_t_conv i = i.toNat := by
  unfold size_t_conv
  omega

/-- For a negative C++ int, conversion to size_t wraps to at least
2 ^ 64 - 2 ^ 31, which exceeds any realistic vector length. -/
lemma size_t_conv_ge_of_neg {i : Int} (h0 : -(2 ^ 31) ≤ i) (h1 : i < 0) :
    2 ^ 32 ≤ size_t_conv i := by
  unfold size_t_conv
  omega

/-- A successful ModifyVelocity call keeps the scale inside
[minv, maxv] whenever 0 < minv and the scale started there. -/
lemma ModifyVelocity_bounds {buttons : List Int} {inc dec : Int}
    {minv maxv s s' : ℚ} (hmin : 0 < minv) (h1 : minv ≤ s) (h2 : s ≤ maxv)
    (h : ModifyVelocity buttons inc dec minv maxv s = some s') :
    minv ≤ s' ∧ s' ≤ maxv := by
  unfold ModifyVelocity at h
  cases hri : vecRead buttons inc with
  | none => rw [hri] at h; cases h
  | some bi =>
      rw [hri] at h
      by_cases hbi : bi = 0
      · subst hbi
        simp only [ne_eq, not_true_eq_false, if_false] at h
        cases hrd : vecRead buttons dec with
        | none => rw [hrd] at h; cases h
        | some bd =>
            rw [hrd] at h
            by_cases hbd : bd = 0
            · subst hbd
              simp only [ne_eq, not_true_eq_false, if_false,
                Option.some.injEq] at h
              subst h
              exact ⟨h1, h2⟩
            · simp only [ne_eq, hbd, not_false_eq_true, if_true,
                Option.some.injEq] at h
              subst h
              refine ⟨le_max_right _ _, max_le ?_ (h1.trans h2)⟩
              have hs : s / (6 / 5) = s * (5 / 6) := by ring
              rw [hs]
              nlinarith
      · simp only [ne_eq, hbi, not_false_eq_true, if_true,
          Option.some.injEq] at h
        subst h
        refine ⟨le_min ?_ (h1.trans h2), min_le_right _ _⟩
        nlinarith

/-- C1: in every frame where the enable-move button reads as not held
(value 0), joyCallback emits a command whose linear.x, linear.y and
angular.z are exactly 0, whatever the frame's axes hold. -/
theorem joyCallback_gate_closed_zero (impl : Impl) (joy : JoyMsg)
    (h : vecRead joy.buttons impl.enable_mov = some 0) :
    ∃ impl' cmd, joyCallback impl joy = some (impl', cmd) ∧
      cmd.linX = 0 ∧ cmd.linY = 0 ∧ cmd.angZ = 0 := by
  refine ⟨{ impl with cmd_vel_msg :=
      { impl.cmd_vel_msg with linX := 0, linY := 0, angZ := 0 } },
    { impl.cmd_vel_msg with linX := 0, linY := 0, angZ := 0 }, ?_, rfl, rfl, rfl⟩
  unfold joyCallback
  rw [h]
  simp

/-- Witness for C1 at a concrete frame: enable index 0, button released,
nonzero axes. -/
theorem joyCallback_gate_closed_zero_witness :
    ∃ impl' cmd,
      joyCallback (mkImpl 0 1 2 [("x", 0)] [("z", 0)] 2) ⟨[3, 4], [0, 1, 1]⟩ =
        some (impl', cmd) ∧ cmd.linX = 0 ∧ cmd.linY = 0 ∧ cmd.angZ = 0 :=
  joyCallback_gate_closed_zero (mkImpl 0 1 2 [("x", 0)] [("z", 0)] 2)
    ⟨[3, 4], [0, 1, 1]⟩ (by decide)

/-- C2 (refuted, code_bug): with the constructor's default button
configuration (enable_mov = 0, increment_vel = -1, decrement_vel = -1) and
the enable button held, joyCallback performs an out-of-bounds read of
buttons[-1] (modelled as none) instead of treating the unassigned index as
not pressed; likewise an out-of-range enable index is read out of bounds
instead of closing the gate. -/
theorem joyCallback_unassigned_button_oob :
    joyCallback (mkImpl 0 (-1) (-1) [] [] 2) ⟨[], [1]⟩ = none ∧
    joyCallback (mkImpl 1 0 0 [] [] 2) ⟨[], [1]⟩ = none := by
  constructor <;> rfl

/-- C4: getVal returns 0 when the field is absent from the map; for a
mapped non-negative index (as the configuration data model prescribes) it
returns 0 when the index is not below the axes length, and the axes entry
at the index otherwise. -/
theorem getVal_spec (axes : List ℚ) (axis_map : List (String × Int))
    (field : String) :
    (axis_map.lookup field = none → getVal axes axis_map field = 0) ∧
    (∀ idx : Int, axis_map.lookup field = some idx → 0 ≤ idx →
      idx < 2 ^ 31 →
      (axes.length ≤ idx.toNat → getVal axes axis_map field = 0) ∧
      (∀ h : idx.toNat < axes.length,
        getVal axes axis_map field = axes.get ⟨idx.toNat, h⟩)) := by
  constructor
  · intro h
    unfold getVal
    rw [h]
  · intro idx hidx h0 h1
    have hg : getVal axes axis_map field =
        if axes.length ≤ size_t_conv idx then 0
        else axes.getD (size_t_conv idx) 0 := by
      unfold getVal
      rw [hidx]
    rw [hg, size_t_conv_eq_toNat h0 h1]
    constructor
    · intro hle
      rw [if_pos hle]
    · intro hlt
      rw [if_neg (by omega), List.getD_eq_getElem _ _ hlt]
      simp

/-- Witness for C4: a mapped in-range index returns the axes entry, a
mapped out-of-range index returns 0, an absent field returns 0. -/
theorem getVal_spec_witness :
    getVal [5, 7] [("x", 1), ("y", 9)] "x" = 7 ∧
    getVal [5, 7] [("x", 1), ("y", 9)] "y" = 0 ∧
    getVal [5, 7] [("x", 1), ("y", 9)] "w" = 0 :=
  ⟨by
    have h := ((getVal_spec [5, 7] [("x", 1), ("y", 9)] "x").2 1 (by decide)
      (by decide) (by decide)).2 (by decide)
    simpa using h,
   ((getVal_spec [5, 7] [("x", 1), ("y", 9)] "y").2 9 (by decide) (by decide)
      (by decide)).1 (by decide),
   (getVal_spec [5, 7] [("x", 1), ("y", 9)] "w").1 (by decide)⟩

/-- C8: whenever the increment button reads truthy, ModifyVelocity returns
min(scale * 1.2, max_vel), whatever the decrement index and the decrement
button hold: increment wins and the decrement branch is not taken. -/
theorem ModifyVelocity_increment_wins (buttons : List Int) (inc dec : Int)
    (minv maxv scale : ℚ) (bi : Int)
    (h : vecRead buttons inc = some bi) (hbi : bi ≠ 0) :
    ModifyVelocity buttons inc dec minv maxv scale =
      some (min (scale * (6 / 5)) maxv) := by
  unfold ModifyVelocity
  rw [h]
  simp [hbi]

/-- Witness for C8: both buttons pressed simultaneously, the result is the
increment candidate. -/
theorem ModifyVelocity_increment_wins_witness :
    ModifyVelocity [1, 1] 0 1 (1 / 10) 2 1 = some (min (1 * (6 / 5)) 2) :=
  ModifyVelocity_increment_wins [1, 1] 0 1 (1 / 10) 2 1 1 (by decide)
    (by decide)

/-- C10: a field mapped to a negative index (a C++ int) takes the fail-safe
branch of getVal, because the signed-to-unsigned comparison turns the
index into a value at least 2 ^ 64 - 2 ^ 31, and returns 0. -/
theorem getVal_negative_index (axes : List ℚ)
    (axis_map : List (String × Int)) (field : String) (idx : Int)
    (h : axis_map.lookup field = some idx) (h0 : -(2 ^ 31) ≤ idx)
    (h1 : idx < 0) (hlen : axes.length < 2 ^ 32) :
    getVal axes axis_map field = 0 := by
  have hg : getVal axes axis_map field =
      if axes.length ≤ size_t_conv idx then 0
      else axes.getD (size_t_conv idx) 0 := by
    unfold getVal
    rw [h]
  rw [hg, if_pos]
  have := size_t_conv_ge_of_neg h0 h1
  omega

/-- Witness for C10: the unassigned sentinel -1 as an axis index yields 0
on a nonempty axes array. -/
theorem getVal_negative_index_witness :
    getVal [5, 7] [("x", -1)] "x" = 0 :=
  getVal_negative_index [5, 7] [("x", -1)] "x" (-1) (by decide) (by decide)
    (by decide) (by decide)

/-- C3: any sequence of completed adjustment calls with the source's fixed
lower bound min_vel = 0.1 keeps the scale inside [min_vel, max_vel] when it
started there. -/
theorem runAdjust_scale_in_bounds (frames : List (List Int)) (inc dec : Int)
    (maxv s s' : ℚ) (h1 : min_vel_init ≤ s) (h2 : s ≤ maxv)
    (h : runAdjust inc dec min_vel_init maxv frames s = some s') :
    min_vel_init ≤ s' ∧ s' ≤ maxv := by
  induction frames generalizing s with
  | nil =>
      unfold runAdjust at h
      cases h
      exact ⟨h1, h2⟩
  | cons f fs ih =>
      unfold runAdjust at h
      cases hm : ModifyVelocity f inc dec min_vel_init maxv s with
      | none => rw [hm] at h; cases h
      | some t =>
          rw [hm] at h
          obtain ⟨ha, hb⟩ := ModifyVelocity_bounds
            (by norm_num [min_vel_init]) h1 h2 hm
          exact ih t ha hb h

/-- Witness for C3: an increment frame followed by a decrement frame from
scale 0.5 with max 2 stays in bounds. -/
theorem runAdjust_scale_in_bounds_witness :
    min_vel_init ≤ (1 / 2 : ℚ) ∧ (1 / 2 : ℚ) ≤ 2 :=
  runAdjust_scale_in_bounds [[1, 0], [0, 1]] 0 1 2 (1 / 2) (1 / 2)
    (by norm_num [min_vel_init]) (by norm_num) (by
      have s1 : ModifyVelocity [1, 0] 0 1 min_vel_init 2 (1 / 2) =
          some (3 / 5) := by
        unfold ModifyVelocity
        rw [show vecRead [1, 0] 0 = some 1 from by decide]
        norm_num [min_def]
      have s2 : ModifyVelocity [0, 1] 0 1 min_vel_init 2 (3 / 5) =
          some (1 / 2) := by
        unfold ModifyVelocity
        rw [show vecRead [0, 1] 0 = some 0 from by decide]
        rw [show vecRead [0, 1] 1 = some 1 from by decide]
        norm_num [max_def, min_vel_init]
      simp only [runAdjust, s1, s2])

/-- C5 (refuted, code_bug): the source has no adjustment timestamp at all;
a second increment request immediately following a first one is applied as
well (the scale moves from 1 to 1.2 to 1.44), instead of being dropped by a
cooldown comparison — the source rate-limits only by sleeping the thread
for reaction_t after every call. -/
theorem runAdjust_second_request_applied :
    runAdjust 0 1 min_vel_init 2 [[1, 0], [1, 0]] 1 = some (36 / 25) ∧
    (36 / 25 : ℚ) ≠ 6 / 5 := by
  have hv : vecRead [1, 0] 0 = some 1 := by decide
  have s1 : ModifyVelocity [1, 0] 0 1 min_vel_init 2 1 = some (6 / 5) := by
    unfold ModifyVelocity
    rw [hv]
    norm_num [min_def]
  have s2 : ModifyVelocity [1, 0] 0 1 min_vel_init 2 (6 / 5) =
      some (36 / 25) := by
    unfold ModifyVelocity
    rw [hv]
    norm_num [min_def]
  constructor
  · simp only [runAdjust, s1, s2]
  · norm_num

/-- C6: in every frame where the enable button reads truthy and the
increment button reads truthy (or the increment button reads 0 and the
decrement button reads truthy), joyCallback emits exactly the previously
stored command cmd_vel_msg, unchanged. -/
theorem joyCallback_scaling_emits_previous (impl : Impl) (joy : JoyMsg)
    (be : Int) (hen : vecRead joy.buttons impl.enable_mov = some be)
    (hbe : be ≠ 0)
    (hreq : (∃ bi, vecRead joy.buttons impl.increment_vel = some bi ∧
        bi ≠ 0) ∨
      (vecRead joy.buttons impl.increment_vel = some 0 ∧
        ∃ bd, vecRead joy.buttons impl.decrement_vel = some bd ∧ bd ≠ 0)) :
    ∃ impl', joyCallback impl joy = some (impl', impl.cmd_vel_msg) := by
  rcases hreq with ⟨bi, hi, hbi⟩ | ⟨hi0, bd, hd, hbd⟩
  · simp only [joyCallback, ModifyVelocity, hen, hi, ne_eq, hbe, hbi,
      not_false_eq_true, if_true, Option.map_some']
    exact ⟨_, rfl⟩
  · simp only [joyCallback, ModifyVelocity, hen, hi0, hd, ne_eq, hbe, hbd,
      not_false_eq_true, if_true, not_true_eq_false, if_false,
      Option.map_some']
    exact ⟨_, rfl⟩

/-- Witness for C6: gate open and increment held at a concrete frame; the
emitted command is the stored one. -/
theorem joyCallback_scaling_emits_previous_witness :
    ∃ impl', joyCallback (mkImpl 0 1 2 [] [] 2) ⟨[3], [1, 1, 0]⟩ =
      some (impl', (mkImpl 0 1 2 [] [] 2).cmd_vel_msg) :=
  joyCallback_scaling_emits_previous (mkImpl 0 1 2 [] [] 2) ⟨[3], [1, 1, 0]⟩
    1 (by decide) (by decide) (Or.inl ⟨1, by decide, by decide⟩)

/-- Every completed joyCallback leaves angular.x and angular.y of the
stored command untouched and publishes exactly the stored command. -/
lemma joyCallback_preserves_ang {impl impl' : Impl} {joy : JoyMsg}
    {cmd : Twist} (h : joyCallback impl joy = some (impl', cmd)) :
    impl'.cmd_vel_msg.angX = impl.cmd_vel_msg.angX ∧
    impl'.cmd_vel_msg.angY = impl.cmd_vel_msg.angY ∧
    cmd = impl'.cmd_vel_msg := by
  unfold joyCallback at h
  cases he : vecRead joy.buttons impl.enable_mov with
  | none => rw [he] at h; cases h
  | some be =>
      rw [he] at h
      by_cases hbe : be = 0
      · subst hbe
        simp only [ne_eq, not_true_eq_false, if_false,
          Option.some.injEq, Prod.mk.injEq] at h
        obtain ⟨h1, h2⟩ := h
        subst h1
        subst h2
        exact ⟨rfl, rfl, rfl⟩
      · simp only [ne_eq, hbe, not_false_eq_true, if_true] at h
        cases hi : vecRead joy.buttons impl.increment_vel with
        | none => rw [hi] at h; cases h
        | some bi =>
            rw [hi] at h
            by_cases hbi : bi = 0
            · subst hbi
              simp only [ne_eq, not_true_eq_false, if_false] at h
              cases hd : vecRead joy.buttons impl.decrement_vel with
              | none => rw [hd] at h; cases h
              | some bd =>
                  rw [hd] at h
                  by_cases hbd : bd = 0
                  · subst hbd
                    simp only [ne_eq, not_true_eq_false, if_false,
                      Option.some.injEq, Prod.mk.injEq] at h
                    obtain ⟨h1, h2⟩ := h
                    subst h1
                    subst h2
                    exact ⟨rfl, rfl, rfl⟩
                  · simp only [ne_eq, hbd, not_false_eq_true, if_true,
                      Option.map_eq_some'] at h
                    obtain ⟨s, _, h1⟩ := h
                    rw [Prod.mk.injEq] at h1
                    obtain ⟨h1, h2⟩ := h1
                    subst h1
                    subst h2
                    exact ⟨rfl, rfl, rfl⟩
            · simp only [ne_eq, hbi, not_false_eq_true, if_true,
                Option.map_eq_some'] at h
              obtain ⟨s, _, h1⟩ := h
              rw [Prod.mk.injEq] at h1
              obtain ⟨h1, h2⟩ := h1
              subst h1
              subst h2
              exact ⟨rfl, rfl, rfl⟩

/-- In every reachable pimpl state, angular.x and angular.y of the stored
command are 0: the source never writes them. -/
lemma reachable_ang_zero {impl : Impl} (h : Reachable impl) :
    impl.cmd_vel_msg.angX = 0 ∧ impl.cmd_vel_msg.angY = 0 := by
  induction h with
  | init enable inc dec posMap orientMap maxv => exact ⟨rfl, rfl⟩
  | step impl impl' joy cmd hr hcb ih =>
      obtain ⟨h1, h2, _⟩ := joyCallback_preserves_ang hcb
      exact ⟨h1.trans ih.1, h2.trans ih.2⟩

/-- C7: in every reachable state, a frame with the gate open and both
adjustment buttons reading 0 makes joyCallback emit linear.x =
mov_vel * getVal(axes, position map, x), linear.y from the y axis,
angular.z from the z axis of the orientation map, with angular.x and
angular.y equal to 0; and in Scenario A (maps x to 0, y to 1, z to 2, axes
0.5, -0.5, 1, scale 0.5) the emitted command is (0.25, -0.25, 0.5). -/
theorem joyCallback_motion_formula :
    (∀ (impl : Impl) (joy : JoyMsg) (be : Int), Reachable impl →
      vecRead joy.buttons impl.enable_mov = some be → be ≠ 0 →
      vecRead joy.buttons impl.increment_vel = some 0 →
      vecRead joy.buttons impl.decrement_vel = some 0 →
      ∃ impl' cmd, joyCallback impl joy = some (impl', cmd) ∧
        cmd.linX = impl.mov_vel * getVal joy.axes impl.axis_position_map "x" ∧
        cmd.linY = impl.mov_vel * getVal joy.axes impl.axis_position_map "y" ∧
        cmd.angZ =
          impl.mov_vel * getVal joy.axes impl.axis_orientation_map "z" ∧
        cmd.angX = 0 ∧ cmd.angY = 0) ∧
    (joyCallback (mkImpl 0 1 2 [("x", 0), ("y", 1)] [("z", 2)] 2)
        ⟨[1 / 2, -(1 / 2), 1], [1, 0, 0]⟩).map
      (fun p => (p.2.linX, p.2.linY, p.2.angZ)) =
      some (1 / 4, -(1 / 4), 1 / 2) := by
  have hmain : ∀ (impl : Impl) (joy : JoyMsg) (be : Int), Reachable impl →
      vecRead joy.buttons impl.enable_mov = some be → be ≠ 0 →
      vecRead joy.buttons impl.increment_vel = some 0 →
      vecRead joy.buttons impl.decrement_vel = some 0 →
      ∃ impl' cmd, joyCallback impl joy = some (impl', cmd) ∧
        cmd.linX = impl.mov_vel * getVal joy.axes impl.axis_position_map "x" ∧
        cmd.linY = impl.mov_vel * getVal joy.axes impl.axis_position_map "y" ∧
        cmd.angZ =
          impl.mov_vel * getVal joy.axes impl.axis_orientation_map "z" ∧
        cmd.angX = 0 ∧ cmd.angY = 0 := by
    intro impl joy be hreach hen hbe hi0 hd0
    obtain ⟨hx, hy⟩ := reachable_ang_zero hreach
    refine ⟨{ impl with cmd_vel_msg :=
        { impl.cmd_vel_msg with
          linX := impl.mov_vel * getVal joy.axes impl.axis_position_map "x"
          linY := impl.mov_vel * getVal joy.axes impl.axis_position_map "y"
          angZ :=
            impl.mov_vel * getVal joy.axes impl.axis_orientation_map "z" } },
      { impl.cmd_vel_msg with
        linX := impl.mov_vel * getVal joy.axes impl.axis_position_map "x"
        linY := impl.mov_vel * getVal joy.axes impl.axis_position_map "y"
        angZ := impl.mov_vel * getVal joy.axes impl.axis_orientation_map "z" },
      ?_, rfl, rfl, rfl, hx, hy⟩
    simp only [joyCallback, hen, hi0, hd0, ne_eq, hbe, not_false_eq_true,
      if_true, not_true_eq_false, if_false]
  refine ⟨hmain, ?_⟩
  obtain ⟨impl', cmd, hcb, hlx, hly, hlz, _, _⟩ :=
    hmain (mkImpl 0 1 2 [("x", 0), ("y", 1)] [("z", 2)] 2)
      ⟨[1 / 2, -(1 / 2), 1], [1, 0, 0]⟩ 1
      (Reachable.init 0 1 2 [("x", 0), ("y", 1)] [("z", 2)] 2)
      (by decide) (by decide) (by decide) (by decide)
  rw [hcb, Option.map_some']
  have g1 : getVal [1 / 2, -(1 / 2), 1] [("x", 0), ("y", 1)] "x" =
      1 / 2 := rfl
  have g2 : getVal [1 / 2, -(1 / 2), 1] [("x", 0), ("y", 1)] "y" =
      -(1 / 2) := rfl
  have g3 : getVal [1 / 2, -(1 / 2), 1] [("z", 2)] "z" = 1 := rfl
  rw [hlx, hly, hlz]
  norm_num [mkImpl, g1, g2, g3]

/-- Witness for C7 at the Scenario A instance: the hypotheses of the main
part hold and the emitted command has the scaled components. -/
theorem joyCallback_motion_formula_witness :
    ∃ impl' cmd,
      joyCallback (mkImpl 0 1 2 [("x", 0), ("y", 1)] [("z", 2)] 2)
          ⟨[1 / 2, -(1 / 2), 1], [1, 0, 0]⟩ = some (impl', cmd) ∧
        cmd.linX = (mkImpl 0 1 2 [("x", 0), ("y", 1)] [("z", 2)] 2).mov_vel *
          getVal [1 / 2, -(1 / 2), 1]
            (mkImpl 0 1 2 [("x", 0), ("y", 1)] [("z", 2)] 2).axis_position_map
            "x" ∧
        cmd.linY = (mkImpl 0 1 2 [("x", 0), ("y", 1)] [("z", 2)] 2).mov_vel *
          getVal [1 / 2, -(1 / 2), 1]
            (mkImpl 0 1 2 [("x", 0), ("y", 1)] [("z", 2)] 2).axis_position_map
            "y" ∧
        cmd.angZ = (mkImpl 0 1 2 [("x", 0), ("y", 1)] [("z", 2)] 2).mov_vel *
          getVal [1 / 2, -(1 / 2), 1]
            (mkImpl 0 1 2 [("x", 0), ("y", 1)]
              [("z", 2)] 2).axis_orientation_map "z" ∧
        cmd.angX = 0 ∧ cmd.angY = 0 :=
  joyCallback_motion_formula.1 (mkImpl 0 1 2 [("x", 0), ("y", 1)] [("z", 2)] 2)
    ⟨[1 / 2, -(1 / 2), 1], [1, 0, 0]⟩ 1
    (Reachable.init 0 1 2 [("x", 0), ("y", 1)] [("z", 2)] 2)
    (by decide) (by decide) (by decide) (by decide)

/-- Closed form of the repeated decrement: after k applied decrements the
scale is the larger of scale * (5/6)^k and the fixed lower bound. -/
lemma decSeq_closed (s : ℚ) (hs : min_vel_init ≤ s) (n : Nat) :
    decSeq s n = max (s * (5 / 6) ^ n) min_vel_init := by
  induction n with
  | zero =>
      rw [decSeq, pow_zero, mul_one, max_eq_left hs]
  | succ n ih =>
      have hm : (0 : ℚ) < min_vel_init := by norm_num [min_vel_init]
      rw [decSeq, ih, decStep]
      rcases le_total (s * (5 / 6) ^ n) min_vel_init with hle | hle
      · rw [max_eq_right hle]
        have h1 : min_vel_init / (6 / 5) ≤ min_vel_init := by
          rw [div_le_iff₀ (by norm_num)]
          nlinarith
        have h2 : s * (5 / 6) ^ (n + 1) ≤ min_vel_init := by
          rw [pow_succ, ← mul_assoc]
          nlinarith
        rw [max_eq_right h1, max_eq_right h2]
      · rw [max_eq_left hle]
        congr 1
        rw [pow_succ, ← mul_assoc]
        ring

/-- C9: the decrement branch of ModifyVelocity realizes decStep; starting
at any scale at least min_vel = 0.1, the sequence of applied decrements is
non-increasing, never drops below min_vel, and is exactly min_vel from some
step on (and stays there); from 0.2 the values are 1/6 (about 0.1667), 5/36
(about 0.1389), 25/216 (about 0.1157), then exactly 0.1, and a further
decrement at 0.1 leaves exactly 0.1. -/
theorem decSeq_converges_to_min :
    (∀ maxv s : ℚ, ModifyVelocity [0, 1] 0 1 min_vel_init maxv s =
      some (decStep s)) ∧
    (∀ s : ℚ, min_vel_init ≤ s →
      (∀ k, decSeq s (k + 1) ≤ decSeq s k) ∧
      (∀ k, min_vel_init ≤ decSeq s k) ∧
      (∃ n, ∀ k, n ≤ k → decSeq s k = min_vel_init)) ∧
    decSeq (1 / 5) 1 = 1 / 6 ∧ decSeq (1 / 5) 2 = 5 / 36 ∧
    decSeq (1 / 5) 3 = 25 / 216 ∧ decSeq (1 / 5) 4 = 1 / 10 ∧
    decStep min_vel_init = min_vel_init := by
  have hm : (0 : ℚ) < min_vel_init := by norm_num [min_vel_init]
  refine ⟨?_, ?_, ?_, ?_, ?_, ?_, ?_⟩
  · intro maxv s
    unfold ModifyVelocity
    rw [show vecRead [0, 1] 0 = some 0 from by decide]
    rw [show vecRead [0, 1] 1 = some 1 from by decide]
    simp [decStep]
  · intro s hs
    have hb : ∀ k, min_vel_init ≤ decSeq s k := by
      intro k
      rw [decSeq_closed s hs k]
      exact le_max_right _ _
    refine ⟨?_, hb, ?_⟩
    · intro k
      have ht := hb k
      show decStep (decSeq s k) ≤ decSeq s k
      unfold decStep
      refine max_le ?_ ht
      exact div_le_self (le_trans hm.le ht) (by norm_num)
    · have hs0 : 0 < s := lt_of_lt_of_le hm hs
      obtain ⟨n, hn⟩ := exists_pow_lt_of_lt_one (div_pos hm hs0)
        (show (5 / 6 : ℚ) < 1 by norm_num)
      refine ⟨n, fun k hk => ?_⟩
      rw [decSeq_closed s hs k]
      apply max_eq_right
      have hpow : (5 / 6 : ℚ) ^ k ≤ (5 / 6 : ℚ) ^ n :=
        pow_le_pow_of_le_one (by norm_num) (by norm_num) hk
      rw [lt_div_iff₀ hs0] at hn
      nlinarith
  · rw [show decSeq (1 / 5 : ℚ) 1 = decStep (1 / 5) from rfl]
    norm_num [decStep, min_vel_init, max_def]
  · rw [show decSeq (1 / 5 : ℚ) 2 = decStep (decSeq (1 / 5) 1) from rfl,
      show decSeq (1 / 5 : ℚ) 1 = decStep (1 / 5) from rfl]
    norm_num [decStep, min_vel_init, max_def]
  · rw [show decSeq (1 / 5 : ℚ) 3 =
        decStep (decStep (decStep (1 / 5))) from rfl]
    norm_num [decStep, min_vel_init, max_def]
  · rw [show decSeq (1 / 5 : ℚ) 4 =
        decStep (decStep (decStep (decStep (1 / 5)))) from rfl]
    norm_num [decStep, min_vel_init, max_def]
  · norm_num [decStep, min_vel_init, max_def]

/-- Witness for C9: from scale 0.2 the bounds and monotonicity of the
decrement sequence hold at step 2. -/
theorem decSeq_converges_to_min_witness :
    min_vel_init ≤ decSeq (1 / 5) 2 ∧ decSeq (1 / 5) 3 ≤ decSeq (1 / 5) 2 :=
  ⟨(decSeq_converges_to_min.2.1 (1 / 5)
      (by norm_num [min_vel_init])).2.1 2,
   (decSeq_converges_to_min.2.1 (1 / 5)
      (by norm_num [min_vel_init])).1 2⟩
